import Mathlib

/-!
Verification development for the px4esc FOC control core.

Shallow embedding of the two source headers:
  * `src/firmware/src/foc/foc.hpp` — public facade: the `State` enum,
    `stateToString`, `setSetpoint`, `stop`, `beginMotorIdentification`,
    `beginHardwareTest`, `getState`.
  * `src/firmware/src/foc/observer.hpp` — the rotor-state `Observer`
    (Kalman-style estimator).

The headers declare the controller state machine and the observer internals
(`Observer::update`, the constructor, `constrainAngularPosition`) without
bodies; those parts are modelled from the specification and are marked
`Modelled from the spec:` in their doc comments.  Everything else is
translated from the inline code in the headers.

Scalars of the controller model are ℚ (the control logic compares times and
setpoint values, so a computable ordered field suffices); the observer model
uses ℝ, since the canonical angle range is (−π, π].
-/

namespace foc

open Matrix

/-- State of the control logic, from the `State` enum in foc.hpp. -/
inductive State
  | Idle
  | MotorIdentification
  | HardwareTesting
  | Spinup
  | Running
  | Fault
deriving DecidableEq, Repr

/-- Translation of `stateToString` from foc.hpp.  The C++ `switch` covers all
six enumerators and the trailing `return "BADSTATE"` is unreachable for valid
values, so the Lean match is total over the six constructors. -/
def stateToString : State → String
  | State.Idle => "Idle"
  | State.MotorIdentification => "MotorID"
  | State.HardwareTesting => "HWTest"
  | State.Spinup => "Spinup"
  | State.Running => "Running"
  | State.Fault => "Fault"

/-- Control mode selector; the `ControlMode` enum lives in parameters.hpp,
which is not part of the sources, so it is modelled as a bare number (its
value never influences the transitions specified for the state machine). -/
abbrev ControlMode := ℕ

/-- Modelled from the spec: the active `ControlCommand` record — the last
setpoint accepted by the state machine, "with an absolute expiry time computed
as `issue_time + ttl`" (spec §3). -/
structure Setpoint where
  mode : ControlMode
  value : ℚ
  expiry : ℚ
deriving DecidableEq, Repr

/-- Modelled from the spec: the controller's observable data — the single
authoritative `State` plus the active `ControlCommand`, replaced wholesale on
every accepted `setSetpoint` call (spec §3, §4.2).  The implementation of the
state machine is not under src/ (foc.hpp only declares the facade). -/
structure Controller where
  state : State
  setpoint : Option Setpoint
deriving DecidableEq, Repr

/-- Translation of the facade read accessor `getState` declared in foc.hpp. -/
def getState (c : Controller) : State :=
  c.state

/-- Modelled from the spec: the body of `setSetpoint` is not under src/
(foc.hpp declares it only).  Spec §4.2: "`value == 0` is always treated as
`stop()` regardless of `control_mode`, including clearing a latched `Fault`";
a non-zero setpoint is accepted only from `Idle` (row "Idle | accepted
non-zero setSetpoint | Spinup") and records an absolute expiry `now + ttl`;
issued while not `Idle` it is rejected as a no-op (spec §7 busy rejection). -/
def setSetpoint (c : Controller) (now : ℚ) (control_mode : ControlMode)
    (value : ℚ) (request_ttl : ℚ) : Controller :=
  if value = 0 then
    { state := State.Idle, setpoint := none }
  else if c.state = State.Idle then
    { state := State.Spinup,
      setpoint := some { mode := control_mode, value := value,
                         expiry := now + request_ttl } }
  else
    c

/-- Translation of the inline `stop()` from foc.hpp:
`stop() { setSetpoint(ControlMode(0), 0.0F, 0.0F); }`. -/
def stop (c : Controller) (now : ℚ) : Controller :=
  setSetpoint c now (0 : ControlMode) 0 0

/-- Modelled from the spec: the body of `beginMotorIdentification` is not
under src/.  Spec §4.2: accepted only from `Idle` (transition to
`MotorIdentification`); otherwise rejected as a no-op (busy rejection). -/
def beginMotorIdentification (c : Controller) (mode : ℕ) : Controller :=
  if c.state = State.Idle then
    { c with state := State.MotorIdentification }
  else
    c

/-- Modelled from the spec: the body of `beginHardwareTest` is not under
src/.  Spec §4.2: accepted only from `Idle` (transition to
`HardwareTesting`); otherwise rejected as a no-op (busy rejection). -/
def beginHardwareTest (c : Controller) : Controller :=
  if c.state = State.Idle then
    { c with state := State.HardwareTesting }
  else
    c

/-- Modelled from the spec: the control-tick step of the state machine is not
under src/.  Spec §4.2 setpoint arbitration: "every tick while in
`Spinup`/`Running`, if `now ≥ expiry`, the state machine forces an implicit
stop (transition to `Idle`) as if `stop()` had been called".  Autonomous
completions of identification, testing and spin-up are external events and
are not part of this tick model. -/
def tick (c : Controller) (now : ℚ) : Controller :=
  if c.state = State.Spinup ∨ c.state = State.Running then
    match c.setpoint with
    | some sp => if sp.expiry ≤ now then { state := State.Idle, setpoint := none } else c
    | none => c
  else
    c

/-- Observer constants invariant to the motor model, from observer.hpp.
`Q`, `R`, `P0` are diagonal matrices (`math::DiagonalMatrix`), embedded by
their diagonal entries; defaults as in the source. -/
structure ObserverParameters where
  Q : Fin 4 → ℝ := ![100, 100, 5000, 5]
  R : Fin 2 → ℝ := ![2, 2]
  P0 : Fin 4 → ℝ := ![100, 100, 5000, 5000]
  cross_coupling_compensation : ℝ := 0.5

/-- Rotor-state observer, from the `Observer` class in observer.hpp: motor
constants, noise covariances, the 2×4 observation matrix `C_`, and the filter
states `x_` (4-vector) and `P_` (4×4 covariance). -/
structure Observer where
  phi_ : ℝ
  ld_ : ℝ
  lq_ : ℝ
  r_ : ℝ
  cross_coupling_comp_ : ℝ
  Q_ : Matrix (Fin 4) (Fin 4) ℝ
  R_ : Matrix (Fin 2) (Fin 2) ℝ
  C_ : Matrix (Fin 2) (Fin 4) ℝ
  x_ : Fin 4 → ℝ
  P_ : Matrix (Fin 4) (Fin 4) ℝ

/-- Index of the angular-velocity component, `StateIndexAngularVelocity = 2`
in observer.hpp. -/
def StateIndexAngularVelocity : Fin 4 := 2

/-- Index of the angular-position component, `StateIndexAngularPosition = 3`
in observer.hpp. -/
def StateIndexAngularPosition : Fin 4 := 3

/-- Modelled from the spec: the body of `Observer::constrainAngularPosition`
is not under src/ (only declared).  Spec §3: θ_mech is "always held inside a
fixed principal range (e.g. (−π, π])"; this is the canonical wrap of a real
number into (−π, π]. -/
noncomputable def constrainAngularPosition (x : ℝ) : ℝ :=
  x - (2 * Real.pi) * ⌈(x - Real.pi) / (2 * Real.pi)⌉

/-- Translation of the inline `getIdq` from observer.hpp:
`x_.block<2, 1>(0, 0)`, the first two components of `x_`. -/
def Observer.getIdq (o : Observer) : Fin 2 → ℝ :=
  fun i => o.x_ ⟨i.val, by omega⟩

/-- Translation of the inline `getAngularVelocity` from observer.hpp:
`x_[StateIndexAngularVelocity]`. -/
def Observer.getAngularVelocity (o : Observer) : ℝ :=
  o.x_ StateIndexAngularVelocity

/-- Translation of the inline `getInterpolatedAngularPosition` from
observer.hpp: `constrainAngularPosition(x_[StateIndexAngularPosition] +
time_since_update * getAngularVelocity())`. -/
noncomputable def Observer.getInterpolatedAngularPosition
    (o : Observer) (time_since_update : ℝ) : ℝ :=
  constrainAngularPosition
    (o.x_ StateIndexAngularPosition + time_since_update * o.getAngularVelocity)

/-- Modelled from the spec: the PMSM electrical/mechanical model driving the
predict step.  The spec deliberately leaves the model underived ("this spec
does not define the electrical model's derivation", §1), so the state
propagation `f`, its Jacobian `F`, and the cross-coupling compensation `comp`
are abstract parameters; all observer theorems hold for every such model. -/
structure PmsmModel where
  f : (Fin 4 → ℝ) → ℝ → (Fin 2 → ℝ) → Fin 4 → ℝ
  F : (Fin 4 → ℝ) → ℝ → (Fin 2 → ℝ) → Matrix (Fin 4) (Fin 4) ℝ
  comp : ℝ → (Fin 4 → ℝ) → Fin 4 → ℝ

/-- Modelled from the spec: the body of `Observer::update` is not under src/
(only declared).  Spec §4.1: one predict-then-correct Kalman cycle —
predict `x` with the model and `P` with the Jacobian and `Q` scaled by `dt`;
correct with innovation `idq − C·x`, gain computed from `P`, `C`, `R`; the
covariance correction uses the symmetry/PSD-preserving (Joseph) form, per the
spec's requirement that implementations preserve symmetric positive
semi-definiteness ("symmetrize if needed", §3); apply the cross-coupling
compensation before finalizing `x`, then wrap θ_mech into its canonical
range. -/
noncomputable def Observer.update (o : Observer) (m : PmsmModel) (dt : ℝ)
    (idq udq : Fin 2 → ℝ) : Observer :=
  let xp := m.f o.x_ dt udq
  let F := m.F o.x_ dt udq
  let Pp := F * o.P_ * Fᵀ + dt • o.Q_
  let S := o.C_ * Pp * o.C_ᵀ + o.R_
  let K := Pp * o.C_ᵀ * S⁻¹
  let xc := fun i => xp i + (K *ᵥ fun j => idq j - (o.C_ *ᵥ xp) j) i
  let xcc := m.comp o.cross_coupling_comp_ xc
  { o with
    x_ := Function.update xcc StateIndexAngularPosition
            (constrainAngularPosition (xcc StateIndexAngularPosition)),
    P_ := (1 - K * o.C_) * Pp * (1 - K * o.C_)ᵀ + K * o.R_ * Kᵀ }

/-- Predicted covariance of one `Observer.update` cycle (the `Pp` of the
predict step), named for use in theorem statements. -/
noncomputable def predictedP (o : Observer) (m : PmsmModel) (dt : ℝ)
    (udq : Fin 2 → ℝ) : Matrix (Fin 4) (Fin 4) ℝ :=
  m.F o.x_ dt udq * o.P_ * (m.F o.x_ dt udq)ᵀ + dt • o.Q_

/-- Kalman gain of one `Observer.update` cycle (the `K` of the correct step),
named for use in theorem statements. -/
noncomputable def observerGain (o : Observer) (m : PmsmModel) (dt : ℝ)
    (udq : Fin 2 → ℝ) : Matrix (Fin 4) (Fin 2) ℝ :=
  predictedP o m dt udq * o.C_ᵀ *
    (o.C_ * predictedP o m dt udq * o.C_ᵀ + o.R_)⁻¹

/-- Corrected angular position of one `Observer.update` cycle before the
final wrap (the θ_mech component of the compensated, corrected state), named
for use in theorem statements. -/
noncomputable def updatedUnwrappedTheta (o : Observer) (m : PmsmModel)
    (dt : ℝ) (idq udq : Fin 2 → ℝ) : ℝ :=
  m.comp o.cross_coupling_comp_
    (fun i => m.f o.x_ dt udq i +
      (observerGain o m dt udq *ᵥ fun j => idq j - (o.C_ *ᵥ m.f o.x_ dt udq) j) i)
    StateIndexAngularPosition

/-- Folding `Observer.update` over a finite sequence of control-tick inputs
`(dt, idq, udq)`. -/
noncomputable def Observer.updateSeq (o : Observer) (m : PmsmModel)
    (steps : List (ℝ × (Fin 2 → ℝ) × (Fin 2 → ℝ))) : Observer :=
  steps.foldl (fun acc s => acc.update m s.1 s.2.1 s.2.2) o

/-- Modelled from the spec: the observation matrix `C_` "reads out
`(i_d, i_q)` directly, since they are the first two state components"
(spec §4.1). -/
def Cobs : Matrix (Fin 2) (Fin 4) ℝ :=
  Matrix.of ![![1, 0, 0, 0], ![0, 1, 0, 0]]

/-- Modelled from the spec: the body of the `Observer` constructor is not
under src/ (only declared).  Spec §4.1/§7: construction takes
`ObserverParameters` plus the four motor electrical constants and "fails to
construct (or asserts) if any denominator term (e.g. inductance) would be
zero"; `Q`/`R`/`P` are initialized from the diagonal parameters and `x` from
zero (spec §3 lifecycles). -/
noncomputable def mkObserver (parameters : ObserverParameters)
    (field_flux stator_phase_inductance_direct stator_phase_inductance_quadrature
     stator_phase_resistance : ℝ) : Option Observer :=
  if stator_phase_inductance_direct = 0 ∨ stator_phase_inductance_quadrature = 0 then
    none
  else
    some { phi_ := field_flux,
           ld_ := stator_phase_inductance_direct,
           lq_ := stator_phase_inductance_quadrature,
           r_ := stator_phase_resistance,
           cross_coupling_comp_ := parameters.cross_coupling_compensation,
           Q_ := Matrix.diagonal parameters.Q,
           R_ := Matrix.diagonal parameters.R,
           C_ := Cobs,
           x_ := fun _ => 0,
           P_ := Matrix.diagonal parameters.P0 }

/-- Concrete controller in `Running` with an active setpoint issued at time 0
with ttl 1, used to exercise the TTL-expiry theorem. -/
def runningController : Controller :=
  { state := State.Running,
    setpoint := some { mode := 0, value := 5, expiry := 1 } }

/-- Concrete controller busy with motor identification, used to exercise the
busy-rejection theorem. -/
def busyController : Controller :=
  { state := State.MotorIdentification, setpoint := none }

/-- Default observer parameters, as constructed by `ObserverParameters()` in
observer.hpp. -/
noncomputable def defaultObserverParameters : ObserverParameters := {}

/-- Concrete PMSM model instance (identity propagation, identity Jacobian,
no compensation) used to exercise the covariance theorem. -/
noncomputable def trivialPmsmModel : PmsmModel :=
  { f := fun x _ _ => x, F := fun _ _ _ => 1, comp := fun _ x => x }

/-- Concrete observer with identity covariances, used to exercise the
covariance theorem. -/
noncomputable def unitObserver : Observer :=
  { phi_ := 1, ld_ := 1, lq_ := 1, r_ := 1, cross_coupling_comp_ := 1 / 2,
    Q_ := 1, R_ := 1, C_ := Cobs, x_ := fun _ => 0, P_ := 1 }

/-! ## Theorems -/

lemma transpose_eq_conjTranspose {a b : Type*} (A : Matrix a b ℝ) : Aᵀ = Aᴴ :=
  (Matrix.conjTranspose_eq_transpose_of_trivial A).symm

lemma posSemidef_smul_nonneg {n : Type*} [Fintype n] {A : Matrix n n ℝ}
    (hA : A.PosSemidef) {c : ℝ} (hc : 0 ≤ c) : (c • A).PosSemidef := by
  constructor
  · show (c • A)ᴴ = c • A
    rw [Matrix.conjTranspose_smul, star_trivial, hA.1]
  · intro x
    rw [Matrix.smul_mulVec_assoc, Matrix.dotProduct_smul, smul_eq_mul]
    exact mul_nonneg hc (hA.2 x)

lemma posSemidef_congruence {a n : Type*} [Fintype a] [Fintype n]
    {A : Matrix n n ℝ} (hA : A.PosSemidef) (B : Matrix a n ℝ) :
    (B * A * Bᵀ).PosSemidef := by
  rw [transpose_eq_conjTranspose]
  exact hA.mul_mul_conjTranspose_same B

lemma update_P_eq (o : Observer) (m : PmsmModel) (dt : ℝ)
    (idq udq : Fin 2 → ℝ) :
    (o.update m dt idq udq).P_ =
      (1 - observerGain o m dt udq * o.C_) * predictedP o m dt udq *
          (1 - observerGain o m dt udq * o.C_)ᵀ +
        observerGain o m dt udq * o.R_ * (observerGain o m dt udq)ᵀ :=
  rfl

lemma update_Q_eq (o : Observer) (m : PmsmModel) (dt : ℝ)
    (idq udq : Fin 2 → ℝ) : (o.update m dt idq udq).Q_ = o.Q_ :=
  rfl

lemma update_R_eq (o : Observer) (m : PmsmModel) (dt : ℝ)
    (idq udq : Fin 2 → ℝ) : (o.update m dt idq udq).R_ = o.R_ :=
  rfl

lemma predictedP_posSemidef (o : Observer) (m : PmsmModel) {dt : ℝ}
    (hdt : 0 ≤ dt) (udq : Fin 2 → ℝ) (hQ : o.Q_.PosSemidef)
    (hP : o.P_.PosSemidef) : (predictedP o m dt udq).PosSemidef :=
  Matrix.PosSemidef.add (posSemidef_congruence hP (m.F o.x_ dt udq))
    (posSemidef_smul_nonneg hQ hdt)

lemma update_P_posSemidef (o : Observer) (m : PmsmModel) {dt : ℝ}
    (hdt : 0 ≤ dt) (idq udq : Fin 2 → ℝ) (hQ : o.Q_.PosSemidef)
    (hR : o.R_.PosSemidef) (hP : o.P_.PosSemidef) :
    ((o.update m dt idq udq).P_).PosSemidef := by
  rw [update_P_eq]
  exact Matrix.PosSemidef.add
    (posSemidef_congruence (predictedP_posSemidef o m hdt udq hQ hP) _)
    (posSemidef_congruence hR _)

lemma updateSeq_P_posSemidef (m : PmsmModel)
    (steps : List (ℝ × (Fin 2 → ℝ) × (Fin 2 → ℝ))) :
    ∀ o : Observer, o.Q_.PosSemidef → o.R_.PosSemidef → o.P_.PosSemidef →
      (∀ s ∈ steps, 0 ≤ s.1) →
      ((o.updateSeq m steps).Q_).PosSemidef ∧
      ((o.updateSeq m steps).R_).PosSemidef ∧
      ((o.updateSeq m steps).P_).PosSemidef := by
  induction steps with
  | nil =>
    intro o hQ hR hP _
    exact ⟨hQ, hR, hP⟩
  | cons s rest ih =>
    intro o hQ hR hP hdt
    have h0 : 0 ≤ s.1 := hdt s (List.mem_cons_self s rest)
    have hstep := update_P_posSemidef o m h0 s.2.1 s.2.2 hQ hR hP
    have hQ' : ((o.update m s.1 s.2.1 s.2.2).Q_).PosSemidef := by
      rw [update_Q_eq]; exact hQ
    have hR' : ((o.update m s.1 s.2.1 s.2.2).R_).PosSemidef := by
      rw [update_R_eq]; exact hR
    exact ih (o.update m s.1 s.2.1 s.2.2) hQ' hR' hstep
      (fun t ht => hdt t (List.mem_cons_of_mem s ht))

/-- C1.  For every controller state (Idle, MotorIdentification,
HardwareTesting, Spinup, Running, Fault), calling `setSetpoint` with value 0
and ttl 0 causes the state observed via `getState()` at the next control tick
to be `Idle`, including clearing a latched `Fault`. -/
theorem zero_setpoint_universal_stop (c : Controller) (now tnext : ℚ)
    (mode : ControlMode) :
    getState (tick (setSetpoint c now mode 0 0) tnext) = State.Idle := by
  simp [setSetpoint, tick, getState]

/-- C2.  On every control tick while the state is `Spinup` or `Running`, if
the current time has reached or passed the active setpoint's absolute expiry
and the setpoint was not renewed, the tick transitions the controller to
`Idle` exactly as if `stop()` had been called. -/
theorem ttl_expiry_implicit_stop (c : Controller) (now : ℚ) (sp : Setpoint)
    (hrun : c.state = State.Spinup ∨ c.state = State.Running)
    (hsp : c.setpoint = some sp) (hexp : sp.expiry ≤ now) :
    tick c now = stop c now := by
  have ht : tick c now = { state := State.Idle, setpoint := none } := by
    unfold tick
    rw [if_pos hrun, hsp]
    simp [hexp]
  rw [ht]
  rfl

/-- Closed instance of C2: a controller running on a setpoint that expired at
time 1 is stopped by the tick at time 2. -/
theorem ttl_expiry_implicit_stop_witness :
    tick runningController 2 = stop runningController 2 :=
  ttl_expiry_implicit_stop runningController 2
    { mode := 0, value := 5, expiry := 1 } (Or.inr rfl) rfl (by norm_num)

/-- C3.  Whenever the controller state is not `Idle`, a non-zero
`setSetpoint`, `beginMotorIdentification`, or `beginHardwareTest` is rejected
as a no-op — the state and the active setpoint are unchanged — while the
zero-setpoint stop path is never rejected. -/
theorem busy_rejection (c : Controller) (now : ℚ) (mode midMode : ℕ)
    (v ttl : ℚ) (hbusy : c.state ≠ State.Idle) (hv : v ≠ 0) :
    setSetpoint c now mode v ttl = c ∧
    beginMotorIdentification c midMode = c ∧
    beginHardwareTest c = c ∧
    setSetpoint c now mode 0 ttl = { state := State.Idle, setpoint := none } := by
  refine ⟨?_, ?_, ?_, ?_⟩
  · unfold setSetpoint
    rw [if_neg hv, if_neg hbusy]
  · unfold beginMotorIdentification
    rw [if_neg hbusy]
  · unfold beginHardwareTest
    rw [if_neg hbusy]
  · unfold setSetpoint
    rw [if_pos rfl]

/-- Closed instance of C3: from `MotorIdentification`, a non-zero setpoint,
another identification request and a hardware-test request are all no-ops,
and the zero setpoint still stops. -/
theorem busy_rejection_witness :
    setSetpoint busyController 0 0 5 1 = busyController ∧
    beginMotorIdentification busyController 0 = busyController ∧
    beginHardwareTest busyController = busyController ∧
    setSetpoint busyController 0 0 0 1 =
      { state := State.Idle, setpoint := none } :=
  busy_rejection busyController 0 0 0 5 1 (by decide) (by norm_num)

/-- C8.  The facade operation `stop()` is behaviourally identical to calling
`setSetpoint` with control mode 0, value 0 and ttl 0, from every controller
state; this is literally the inline body of `stop()` in foc.hpp. -/
theorem stop_is_zero_setpoint (c : Controller) (now : ℚ) :
    stop c now = setSetpoint c now (0 : ControlMode) 0 0 :=
  rfl

/-- C10.  `stateToString` is total over the six declared `State` values and
injective on them: the six names are pairwise distinct and non-empty, and the
fallback string "BADSTATE" is never returned for a valid enumerator. -/
theorem stateToString_total_injective :
    ([State.Idle, State.MotorIdentification, State.HardwareTesting,
      State.Spinup, State.Running, State.Fault].map stateToString).Nodup ∧
    ∀ s : State, stateToString s ≠ "BADSTATE" ∧ stateToString s ≠ "" := by
  refine ⟨by decide, fun s => ?_⟩
  cases s <;> exact ⟨by decide, by decide⟩

/-- C4.  For every finite sequence of `Observer.update` calls (arbitrary
dt > 0, measured currents and applied voltages, and any PMSM model), the
error-covariance matrix `P` remains symmetric and positive semi-definite
(all eigenvalues non-negative) after each call, i.e. after every prefix of
the sequence. -/
theorem covariance_symmetric_psd (m : PmsmModel) (o : Observer)
    (hQ : o.Q_.PosSemidef) (hR : o.R_.PosSemidef) (hP : o.P_.PosSemidef)
    (steps : List (ℝ × (Fin 2 → ℝ) × (Fin 2 → ℝ)))
    (hdt : ∀ s ∈ steps, 0 < s.1) (n : ℕ) :
    ((o.updateSeq m (steps.take n)).P_).PosSemidef ∧
    ((o.updateSeq m (steps.take n)).P_)ᵀ = (o.updateSeq m (steps.take n)).P_ ∧
    ∀ (h : ((o.updateSeq m (steps.take n)).P_).IsHermitian) (i : Fin 4),
      0 ≤ h.eigenvalues i := by
  have key := updateSeq_P_posSemidef m (steps.take n) o hQ hR hP
    (fun s hs => (hdt s (List.take_subset n steps hs)).le)
  have hpsd := key.2.2
  refine ⟨hpsd, ?_, ?_⟩
  · rw [transpose_eq_conjTranspose]
    exact hpsd.1
  · intro h i
    exact hpsd.eigenvalues_nonneg i

/-- Closed instance of C4: one update of the unit-covariance observer under
the trivial model keeps `P` symmetric positive semi-definite. -/
theorem covariance_symmetric_psd_witness :
    ((unitObserver.updateSeq trivialPmsmModel
        ([((1 : ℝ), ![0, 0], ![0, 0])].take 1)).P_).PosSemidef ∧
    ((unitObserver.updateSeq trivialPmsmModel
        ([((1 : ℝ), ![0, 0], ![0, 0])].take 1)).P_)ᵀ =
      (unitObserver.updateSeq trivialPmsmModel
        ([((1 : ℝ), ![0, 0], ![0, 0])].take 1)).P_ ∧
    ∀ (h : ((unitObserver.updateSeq trivialPmsmModel
        ([((1 : ℝ), ![0, 0], ![0, 0])].take 1)).P_).IsHermitian) (i : Fin 4),
      0 ≤ h.eigenvalues i :=
  covariance_symmetric_psd trivialPmsmModel unitObserver
    Matrix.PosSemidef.one Matrix.PosSemidef.one Matrix.PosSemidef.one
    [((1 : ℝ), ![0, 0], ![0, 0])]
    (by
      intro s hs
      rw [List.mem_singleton] at hs
      subst hs
      norm_num) 1

lemma constrainAngularPosition_bounds (x : ℝ) :
    -Real.pi < constrainAngularPosition x ∧
      constrainAngularPosition x ≤ Real.pi := by
  have hT : (0 : ℝ) < 2 * Real.pi := by positivity
  unfold constrainAngularPosition
  set c : ℤ := ⌈(x - Real.pi) / (2 * Real.pi)⌉ with hc
  have h1 : (x - Real.pi) / (2 * Real.pi) ≤ (c : ℝ) := Int.le_ceil _
  have h2 : ((c : ℝ)) < (x - Real.pi) / (2 * Real.pi) + 1 :=
    Int.ceil_lt_add_one _
  have e1 : x - Real.pi ≤ (c : ℝ) * (2 * Real.pi) := (div_le_iff₀ hT).mp h1
  have h2' : (c : ℝ) - 1 < (x - Real.pi) / (2 * Real.pi) := by linarith
  have e2 : ((c : ℝ) - 1) * (2 * Real.pi) < x - Real.pi := (lt_div_iff₀ hT).mp h2'
  constructor
  · nlinarith [e2]
  · nlinarith [e1]

/-- C5.  Every angular-position value produced by `Observer.update` (the
stored θ_mech component of `x`) and every value returned by
`getInterpolatedAngularPosition` lies within the canonical principal range
(−π, π], even when the unwrapped position advances by more than one
revolution in a single step. -/
theorem angle_wrap_invariant (o : Observer) (m : PmsmModel) (dt t : ℝ)
    (idq udq : Fin 2 → ℝ) :
    (-Real.pi < (o.update m dt idq udq).x_ StateIndexAngularPosition ∧
      (o.update m dt idq udq).x_ StateIndexAngularPosition ≤ Real.pi) ∧
    (-Real.pi < o.getInterpolatedAngularPosition t ∧
      o.getInterpolatedAngularPosition t ≤ Real.pi) := by
  constructor
  · have hyeq : (o.update m dt idq udq).x_ StateIndexAngularPosition =
        constrainAngularPosition (updatedUnwrappedTheta o m dt idq udq) := by
      simp only [Observer.update, updatedUnwrappedTheta]
      exact Function.update_same _ _ _
    rw [hyeq]
    exact constrainAngularPosition_bounds _
  · exact constrainAngularPosition_bounds _

/-- C6.  For every observer state and every time offset Δt,
`getInterpolatedAngularPosition(Δt)` returns the stored angular position
(component `StateIndexAngularPosition` of `x`) plus Δt times the stored
angular velocity (component `StateIndexAngularVelocity`), wrapped to the
canonical range; being a `const` read, it is embedded as a pure function of
the observer, so `x` and `P` are untouched. -/
theorem interpolation_is_linear_extrapolation (o : Observer) (t : ℝ) :
    o.getInterpolatedAngularPosition t =
      constrainAngularPosition (o.x_ StateIndexAngularPosition +
        t * o.x_ StateIndexAngularVelocity) :=
  rfl

/-- C7.  For every observer state, `getIdq()` returns exactly the first two
components of the 4-element state vector `x = [i_d, i_q, ω_mech, θ_mech]`;
being a `const` read, it is embedded as a pure function, so `x` and `P` are
untouched and nothing is recomputed. -/
theorem getIdq_reads_first_two_components (o : Observer) :
    o.getIdq 0 = o.x_ 0 ∧ o.getIdq 1 = o.x_ 1 :=
  ⟨rfl, rfl⟩

/-- C9.  Observer construction fails whenever either stator phase inductance
(a denominator of the electrical model) is zero, and every successfully
constructed observer carries non-zero inductances. -/
theorem construction_rejects_zero_inductance (p : ObserverParameters)
    (flux Ld Lq Rs : ℝ) :
    ((Ld = 0 ∨ Lq = 0) → mkObserver p flux Ld Lq Rs = none) ∧
    ∀ o, mkObserver p flux Ld Lq Rs = some o → o.ld_ ≠ 0 ∧ o.lq_ ≠ 0 := by
  constructor
  · intro h
    unfold mkObserver
    rw [if_pos h]
  · intro o ho
    unfold mkObserver at ho
    by_cases h : Ld = 0 ∨ Lq = 0
    · rw [if_pos h] at ho
      exact absurd ho (by simp)
    · rw [if_neg h] at ho
      push_neg at h
      injection ho with ho2
      subst ho2
      exact ⟨h.1, h.2⟩

/-- Closed instance of C9: constructing with a zero direct-axis inductance
fails. -/
theorem construction_rejects_zero_inductance_witness :
    mkObserver defaultObserverParameters 1 0 1 1 = none :=
  (construction_rejects_zero_inductance defaultObserverParameters 1 0 1 1).1
    (Or.inl rfl)

end foc
